import Mathlib

/-!
Shallow embedding of the audio playback engine of the festival-broadcast
music player (the `shukusai` crate's `Audio` worker plus the pieces of the
`Kernel`, output-device resolution and GUI exit routine that the verified
properties touch).

Conventions of the embedding:

* `SongKey`, `AlbumKey`, `ArtistKey` are `Nat`.
* `AudioState` mirrors the shared `AUDIO_STATE` structure; `Runtime`
  values (`elapsed`, `runtime`) are whole seconds as `Nat`.
* The engine's own fields that the queue logic touches are `current`
  (whether `self.current: Option<AudioReader>` is `Some`) and `seek_time`
  (the pending `self.seek: Option<Time>`, seconds).
* Operations are pure functions `Audio → AudioState → Audio × AudioState`,
  mirroring `&mut self` plus the `RwLockWriteGuard<AudioState>` that the
  source threads through its helpers.
* `set(key)` (audio.rs `Audio::set`) is modelled on its success path:
  probing the file succeeds, so the song/elapsed/runtime fields are
  written.  (On probe failure the source calls `clear(false)` and emits
  `PathError`; I/O is outside the embedding.)
* The PRNG of `shuffle` and the playlist lookup of `queue_add_playlist`
  are passed in as oracle arguments (the shuffled queue, resp. the
  `valid_keys` result).
* A Rust panic is modelled by `Option`: `queue_remove_range` returns
  `none` where `VecDeque::drain` would panic.
-/

namespace Shukusai

/-- Repeat mode (spec §3; the source's `shukusai::audio::Repeat`). -/
inductive Repeat where
  | Off
  | Song
  | Queue
  | QueuePause
deriving DecidableEq, Repr

/-- Append mode (the source's `shukusai::audio::Append`). -/
inductive Append where
  | Back
  | Front
  | Index (i : Nat)
deriving DecidableEq, Repr

/-- Seek mode (the source's `shukusai::audio::Seek`). -/
inductive Seek where
  | Forward
  | Backward
  | Absolute
deriving DecidableEq, Repr

/-- The read-only catalog snapshot, reduced to what the queue logic reads:
the runtime (seconds) of every song keyed by `SongKey`, the ordered song
lists of albums keyed by `AlbumKey`, and the ordered song lists of artists
(`Collection::all_songs`) keyed by `ArtistKey`. -/
structure Collection where
  songRuntimes : List Nat
  albums : List (List Nat)
  artists : List (List Nat)
deriving DecidableEq, Repr

/-- The shared `AUDIO_STATE` (`shukusai::state::AudioState`).  The source's
`repeat` field is named `repeat_mode` because `repeat` is a Lean keyword. -/
structure AudioState where
  queue : List Nat
  queue_idx : Option Nat
  song : Option Nat
  elapsed : Nat
  runtime : Nat
  playing : Bool
  repeat_mode : Repeat
  volume : Nat
deriving DecidableEq, Repr

/-- Modelled from the spec: `AudioState::finish` is not under `src/`
(only its callers are).  Spec §4.2: "call `finish()` which nulls
`song/queue_idx/elapsed/runtime`"; spec §8 scenario 4 additionally fixes
`playing = false` after `finish()`. -/
def AudioState.finish (s : AudioState) : AudioState :=
  { s with queue_idx := none, song := none, elapsed := 0, runtime := 0,
           playing := false }

/-- Modelled from the spec: `AudioState::next` is not under `src/` (only
its caller `Audio::skip` is).  Spec §4.2 `skip(1)`: "advance to the next
queue position if any", coupling `song`/`queue_idx` per the §3 invariant;
returns the new `SongKey`, or `None` when none is left. -/
def AudioState.next (s : AudioState) : Option Nat × AudioState :=
  match s.queue_idx with
  | some i =>
    match s.queue.get? (i + 1) with
    | some key => (some key, { s with song := some key, queue_idx := some (i + 1) })
    | none => (none, s)
  | none => (none, s)

/-- The Audio engine fields that the queue logic touches (audio.rs
`struct Audio`): whether a reader is loaded, and the pending seek. -/
structure Audio where
  current : Bool
  seek_time : Option Nat
deriving DecidableEq, Repr

namespace Audio

/-- audio.rs `Audio::set` (success path): load the song, flush output,
then write `song`, zero `elapsed`, and copy the song's `runtime`. -/
def set (c : Collection) (key : Nat) (a : Audio) (s : AudioState) :
    Audio × AudioState :=
  ({ a with current := true },
   { s with song := some key, elapsed := 0,
            runtime := c.songRuntimes.getD key 0 })

/-- audio.rs `Audio::clear`: empty the queue, write `playing :=
keep_playing`, and when not keeping, `finish()` the state and drop the
reader and pending seek. -/
def clear (keep_playing : Bool) (a : Audio) (s : AudioState) :
    Audio × AudioState :=
  let s1 := { s with queue := [], playing := keep_playing }
  if keep_playing then (a, s1)
  else ({ a with current := false, seek_time := none }, s1.finish)

/-- audio.rs `Audio::inner_play`: start the output and mark playing. -/
def inner_play (a : Audio) (s : AudioState) : Audio × AudioState :=
  (a, { s with playing := true })

/-- The repeat-the-queue block that `Audio::skip` duplicates in its
`skip == 1` and `skip > 1` branches (audio.rs lines 798-809 and 826-837):
when the queue is non-empty re-`set` `queue[0]`, and under `QueuePause`
additionally stop playing. -/
def skip_wrap (c : Collection) (a : Audio) (s : AudioState) :
    Audio × AudioState :=
  let p :=
    if s.queue.isEmpty then (a, s)
    else
      let key := s.queue.getD 0 0
      let q := set c key a s
      (q.1, { q.2 with song := some key, queue_idx := some 0 })
  if s.repeat_mode = Repeat.QueuePause then
    (p.1, { p.2 with playing := false })
  else p

/-- audio.rs `Audio::skip` (the parameter keeps the source's name
`skip`). -/
def skip (c : Collection) (skip : Nat) (a : Audio) (s : AudioState) :
    Audio × AudioState :=
  if skip = 0 then (a, s)
  else if s.repeat_mode = Repeat.Song then
    match s.song with
    | some key => set c key a s
    | none => (a, s)
  else if skip = 1 then
    match s.next with
    | (some nxt, s1) => set c nxt a s1
    | (none, s1) =>
      if s1.repeat_mode = Repeat.Queue ∨ s1.repeat_mode = Repeat.QueuePause then
        skip_wrap c a s1
      else ({ a with current := false }, s1.finish)
  else
    match s.queue_idx with
    | some index =>
      if (s.repeat_mode = Repeat.Queue ∨ s.repeat_mode = Repeat.QueuePause)
          ∧ index + skip ≥ s.queue.length then
        skip_wrap c a s
      else if s.queue.length > index + skip then
        let key := s.queue.getD (index + skip) 0
        let q := set c key a s
        (q.1, { q.2 with song := some key, queue_idx := some (index + skip) })
      else ({ a with current := false }, s.finish)
    | none => (a, s)

/-- audio.rs `Audio::seek`.  The pending seek is stored in `seek_time`
and applied by the main loop; overruns fall through to `skip(1)`. -/
def seek (c : Collection) (mode : Seek) (time : Nat) (a : Audio)
    (s : AudioState) : Audio × AudioState :=
  if a.current then
    match mode with
    | Seek.Forward =>
      let seconds := time + s.elapsed
      if seconds > s.runtime then skip c 1 a s
      else ({ a with seek_time := some seconds }, s)
    | Seek.Backward =>
      let seconds := if time > s.elapsed then 0 else s.elapsed - time
      ({ a with seek_time := some seconds }, s)
    | Seek.Absolute =>
      if time > s.runtime then skip c 1 a s
      else ({ a with seek_time := some time }, s)
  else (a, s)

/-- audio.rs `Audio::back`.  `th` is the value of the global
`PREVIOUS_THRESHOLD` atomic, read first; a provided `threshold` takes
precedence over it (the parameter keeps the source's name `back`). -/
def back (c : Collection) (back : Nat) (threshold : Option Nat) (th : Nat)
    (a : Audio) (s : AudioState) : Audio × AudioState :=
  if s.queue.isEmpty then (a, s)
  else
    match s.queue_idx with
    | some index =>
      if index < back then
        let key := s.queue.getD 0 0
        let q := set c key a s
        (q.1, { q.2 with song := some key, queue_idx := some 0 })
      else
        match threshold with
        | some t =>
          if t ≠ 0 ∧ s.elapsed > t then seek c Seek.Absolute 0 a s
          else
            let new_index := index - back
            let key := s.queue.getD new_index 0
            let q := set c key a s
            (q.1, { q.2 with song := some key, queue_idx := some new_index })
        | none =>
          if th ≠ 0 ∧ s.elapsed > th then seek c Seek.Absolute 0 a s
          else
            let new_index := index - back
            let key := s.queue.getD new_index 0
            let q := set c key a s
            (q.1, { q.2 with song := some key, queue_idx := some new_index })
    | none => (a, s)

/-- audio.rs `Audio::shuffle`.  The PRNG permutation is an oracle: the
caller supplies the shuffled queue `sh` (theorems hypothesise that it is
a permutation of the old queue). -/
def shuffle (c : Collection) (sh : List Nat) (a : Audio) (s : AudioState) :
    Audio × AudioState :=
  if s.queue.isEmpty then (a, s)
  else
    let s1 := { s with queue := sh, queue_idx := some 0 }
    set c (s1.queue.getD 0 0) a s1

/-- audio.rs `Audio::queue_set_index`: out-of-range indices `finish()`
(the source's "Prevent bad index panicking"), in-range ones are set and
played. -/
def queue_set_index (c : Collection) (index : Nat) (a : Audio)
    (s : AudioState) : Audio × AudioState :=
  if index ≥ s.queue.length then ({ a with current := false }, s.finish)
  else
    let s1 := { s with queue_idx := some index }
    set c (s1.queue.getD index 0) a s1

/-- audio.rs `Audio::queue_remove_range`.  `none` models the Rust panic:
after the source's release-build guards (`start >= len`, `end > len`,
each a logged no-op) `VecDeque::drain(start..end)` still panics when
`start > end` (the `debug_panic!` guard above it is compiled out of
release builds).  `contains` is computed before the guards, as in the
source.  The range end is named `stop` because `end` is a Lean keyword. -/
def queue_remove_range (c : Collection) (start stop : Nat) (next : Bool)
    (a : Audio) (s : AudioState) : Option (Audio × AudioState) :=
  let len := s.queue.length
  let contains : Bool :=
    match s.queue_idx with
    | some i => decide (start ≤ i ∧ i < stop)
    | none => false
  if start ≥ len then some (a, s)
  else if stop > len then some (a, s)
  else if start > stop then none
  else
    let s1 := { s with queue := s.queue.take start ++ s.queue.drop stop }
    match s1.queue_idx with
    | some index =>
      if start = 0 ∧ contains ∧ len > stop then
        let s2 := { s1 with queue_idx := some 0 }
        if next then some (set c (s2.queue.getD 0 0) a s2)
        else some (a, s2)
      else if next ∧ index = start then
        match s1.queue.get? index with
        | some key => some (set c key a s1)
        | none => some (a, s1)
      else if index ≥ stop then
        some (a, { s1 with queue_idx := some (index - (stop - start)) })
      else some (a, s1)
    | none => some (a, s1)

/-- audio.rs `Audio::queue_add_song`.  The source's `VecDeque::insert`
panics for `i > len`; the `Append::Index` arm is modelled for `i ≤ len`
(splice). -/
def queue_add_song (c : Collection) (key : Nat) (append : Append)
    (clear play : Bool) (a : Audio) (s : AudioState) : Audio × AudioState :=
  let p := if clear then Audio.clear play a s else (a, s)
  let a := p.1
  let s := p.2
  let q :=
    match append with
    | Append.Back =>
      let s1 := { s with queue := s.queue ++ [key] }
      if !a.current then
        set c key a { s1 with queue_idx := some 0 }
      else (a, s1)
    | Append.Front =>
      set c key a { s with queue := key :: s.queue, queue_idx := some 0 }
    | Append.Index i =>
      let p1 :=
        if i = 0 then set c key a { s with queue_idx := some 0 }
        else (a, s)
      (p1.1, { p1.2 with queue := p1.2.queue.take i ++ [key] ++ p1.2.queue.drop i })
  if !clear ∧ play then inner_play q.1 q.2 else q

/-- audio.rs `Audio::queue_add_album`.  `keys` is
`collection.albums[key].songs`; bad offsets are normalized to 0 before
use.  `Append::Index` splices the keys at `i` and sets the starting song
only when `i = 0` (checked against the pre-increment value `og_i`); the
splice models the source's `VecDeque::insert` loop for `i ≤ len`, beyond
which the source panics. -/
def queue_add_album (c : Collection) (key : Nat) (append : Append)
    (clear play : Bool) (offset : Nat) (a : Audio) (s : AudioState) :
    Audio × AudioState :=
  let p := if clear then Audio.clear play a s else (a, s)
  let a := p.1
  let s := p.2
  let keys := c.albums.getD key []
  let off := if offset ≥ keys.length then 0 else offset
  let q :=
    match append with
    | Append.Back =>
      let s1 := { s with queue := s.queue ++ keys }
      if !a.current then
        set c (keys.getD off 0) a { s1 with queue_idx := some off }
      else (a, s1)
    | Append.Front =>
      set c (keys.getD off 0) a
        { s with queue := keys ++ s.queue, queue_idx := some off }
    | Append.Index i =>
      let s1 := { s with queue := s.queue.take i ++ keys ++ s.queue.drop i }
      if i = 0 then
        set c (keys.getD off 0) a { s1 with queue_idx := some 0 }
      else (a, s1)
  if !clear ∧ play then inner_play q.1 q.2 else q

/-- audio.rs `Audio::queue_add_artist`.  `keys` is
`collection.all_songs(key)`; in the `Append::Index` arm the source sets
the starting song (when `i = 0`) before splicing, so the splice is applied
to the post-`set` state; the splice models the source's `VecDeque::insert`
loop for `i ≤ len`, beyond which the source panics. -/
def queue_add_artist (c : Collection) (key : Nat) (append : Append)
    (clear play : Bool) (offset : Nat) (a : Audio) (s : AudioState) :
    Audio × AudioState :=
  let p := if clear then Audio.clear play a s else (a, s)
  let a := p.1
  let s := p.2
  let keys := c.artists.getD key []
  let off := if offset ≥ keys.length then 0 else offset
  let q :=
    match append with
    | Append.Back =>
      let s1 := { s with queue := s.queue ++ keys }
      if !a.current then
        set c (keys.getD off 0) a { s1 with queue_idx := some off }
      else (a, s1)
    | Append.Front =>
      set c (keys.getD off 0) a
        { s with queue := keys ++ s.queue, queue_idx := some off }
    | Append.Index i =>
      let p1 :=
        if i = 0 then set c (keys.getD off 0) a { s with queue_idx := some 0 }
        else (a, s)
      (p1.1, { p1.2 with queue := p1.2.queue.take i ++ keys ++ p1.2.queue.drop i })
  if !clear ∧ play then inner_play q.1 q.2 else q

/-- audio.rs `Audio::queue_add_playlist`.  `keysOpt` is the oracle result
of `PLAYLISTS.read().valid_keys(playlist, collection)` (`none` when the
playlist does not exist); a missing or empty playlist returns before the
state is touched.  The `Append::Index` splice models the source's
`VecDeque::insert` loop for `i ≤ len`, beyond which the source panics.
In the `Append::Index` arm the source's head check
`if i == 0` runs after the insertion loop has advanced `i` by one per
inserted key, so for the (non-empty) key list it never holds with the
original index 0; the model tests `i + keys.length = 0` accordingly. -/
def queue_add_playlist (c : Collection) (keysOpt : Option (List Nat))
    (append : Append) (clear play : Bool) (offset : Nat) (a : Audio)
    (s : AudioState) : Audio × AudioState :=
  match keysOpt with
  | none => (a, s)
  | some keys =>
    if keys.isEmpty then (a, s)
    else
      let p := if clear then Audio.clear play a s else (a, s)
      let a1 := p.1
      let s0 := p.2
      let off := if offset ≥ keys.length then 0 else offset
      let q :=
        match append with
        | Append.Back =>
          let s1 := { s0 with queue := s0.queue ++ keys }
          if !a1.current then
            set c (keys.getD off 0) a1 { s1 with queue_idx := some off }
          else (a1, s1)
        | Append.Front =>
          set c (keys.getD off 0) a1
            { s0 with queue := keys ++ s0.queue, queue_idx := some off }
        | Append.Index i =>
          let s1 := { s0 with queue := s0.queue.take i ++ keys ++ s0.queue.drop i }
          if i + keys.length = 0 then
            set c (keys.getD off 0) a1 { s1 with queue_idx := some 0 }
          else (a1, s1)
      if !clear ∧ play then inner_play q.1 q.2 else q

end Audio

/-- Result of resolving a device name to a concrete output device
(`Result<Device, AudioOutputError>`, with the device as its index in the
host's list). -/
inductive DeviceResult where
  | ok (d : Nat)
  | invalid_output_device
deriving DecidableEq, Repr

/-- device.rs `AudioOutputDevice::get_cpal_device`.  `default_device` is
the host's default output device, `devices` the host's output device
list as `(index, name())` pairs where `none` stands for a `name()` that
errored (the source's `unwrap_or(false)` filters those out). -/
def get_cpal_device (device_name : String) (default_device : Option Nat)
    (devices : List (Nat × Option String)) : DeviceResult :=
  if device_name = "Default Device" then
    match default_device with
    | some d => DeviceResult.ok d
    | none => DeviceResult.invalid_output_device
  else
    let matching := devices.filter (fun d => d.2 = some device_name)
    if matching.isEmpty then DeviceResult.invalid_output_device
    else if matching.length = 1 then
      DeviceResult.ok (matching.headD (0, none)).1
    else DeviceResult.invalid_output_device

/-- output.rs `AudioOutputDevice::into_cpal_device`.  The source first
returns an error when `matching_devices.is_empty()`, then tests
`matching_devices.len() == 0` (not `== 1`) before returning the single
device; the model reproduces that test verbatim. -/
def into_cpal_device (device_name : String)
    (devices : List (Nat × Option String)) : DeviceResult :=
  let matching := devices.filter (fun d => d.2 = some device_name)
  if matching.isEmpty then DeviceResult.invalid_output_device
  else if matching.length = 0 then
    DeviceResult.ok (matching.headD (0, none)).1
  else DeviceResult.invalid_output_device

/-- exit.rs `Gui::exit`, one iteration of the save-acknowledgement wait
loop (lines 66-81).  `msg = some r` models a 300 ms `recv_timeout` that
yielded `KernelToFrontend::Exit(r)` (the loop logs and breaks); `msg =
none` models a timeout or other message, where the source only logs once
`n > 3` and otherwise increments `n` — neither arm breaks.  The result is
`none` when the loop breaks and `some n'` when it continues. -/
def exit_wait_step (n : Nat) (msg : Option Bool) : Option Nat :=
  match msg with
  | some _ => none
  | none => if n > 3 then some n else some (n + 1)

/-- Whether the exit wait loop, started with counter `n` and fed only
failed receives (no `Exit(Result)` ever arrives), breaks within `k`
iterations. -/
def exit_wait_broken_within : Nat → Nat → Bool
  | 0, _ => false
  | k + 1, n =>
    match exit_wait_step n none with
    | none => true
    | some n' => exit_wait_broken_within k n'

/-- The queue-integrity invariant of spec §3/§8: `queue_idx = Some(i)`
implies `i < len(queue)` and `song = Some(queue[i])`; an empty queue
implies `queue_idx = None`, `song = None` and `playing = false`. -/
def Inv (s : AudioState) : Prop :=
  (∀ i, s.queue_idx = some i →
    i < s.queue.length ∧ s.song = s.queue.get? i) ∧
  (s.queue = [] → s.queue_idx = none ∧ s.song = none ∧ s.playing = false)

/-- A small catalog fixture: 40 songs of 100 seconds each, one album
`[20, 21, 22]`, one artist `[30, 31]`. -/
def collectionX : Collection :=
  ⟨List.replicate 40 100, [[20, 21, 22]], [[30, 31]]⟩

/-- Engine fixture with a loaded reader and no pending seek. -/
def audioLoaded : Audio := ⟨true, none⟩

/-- Engine fixture with no reader loaded. -/
def audioIdle : Audio := ⟨false, none⟩

/-- State fixture for the spec's remove-range scenario: queue
`[A, B, C, D, E]` as keys `[10..14]`, `queue_idx = 2`, song `C`. -/
def stateABCDE : AudioState :=
  ⟨[10, 11, 12, 13, 14], some 2, some 12, 0, 100, true, Repeat.Off, 50⟩

/-- State fixture for the spec's back scenarios: queue `[A, B, C]` as
keys `[10, 11, 12]`, `queue_idx = 1`, song `B`, `elapsed = 10`. -/
def stateABC1 : AudioState :=
  ⟨[10, 11, 12], some 1, some 11, 10, 100, true, Repeat.Off, 50⟩

/-- State fixture for the spec's skip-overrun scenario: queue
`[A, B, C]`, `queue_idx = 0`, song `A`. -/
def stateABC0 : AudioState :=
  ⟨[10, 11, 12], some 0, some 10, 3, 100, true, Repeat.Off, 50⟩

/-- Idle empty state fixture. -/
def stateEmpty : AudioState := ⟨[], none, none, 0, 0, false, Repeat.Off, 50⟩

/-- State fixture with one queued, playing song. -/
def stateOneSong : AudioState :=
  ⟨[10], some 0, some 10, 5, 100, true, Repeat.Off, 50⟩

theorem get?_getD (l : List Nat) (j : Nat) (h : j < l.length) :
    l.get? j = some (l.getD j 0) := by
  rw [List.getD_eq_getElem?_getD, ← List.get?_eq_getElem?]
  cases hx : l.get? j with
  | some x => simp [hx]
  | none => exact absurd (List.get?_eq_none.mp hx) (by omega)

theorem inv_finish (s : AudioState) : Inv s.finish := by
  constructor
  · intro i h
    simp [AudioState.finish] at h
  · intro _
    simp [AudioState.finish]

/-- Invariant from the three field facts of a well-indexed state. -/
theorem inv_of_eqs (q : List Nat) (j : Nat) (s : AudioState)
    (hj : j < q.length) (hq : s.queue = q) (hidx : s.queue_idx = some j)
    (hsong : s.song = some (q.getD j 0)) : Inv s := by
  constructor
  · intro i hi
    rw [hidx] at hi
    injection hi with hi
    subst hi
    rw [hq, hsong, get?_getD q j hj]
    exact ⟨hj, rfl⟩
  · intro he
    rw [hq] at he
    subst he
    simp at hj

theorem inv_playing_false (s : AudioState) (h : Inv s) :
    Inv { s with playing := false } := by
  obtain ⟨h1, h2⟩ := h
  exact ⟨fun i hi => h1 i hi, fun he => ⟨(h2 he).1, (h2 he).2.1, rfl⟩⟩

/-- C3.  The claim says every range `[s,e)` violating the preconditions
`s < e`, `s < len`, `e ≤ len` is logged and ignored.  The code only
guards `s ≥ len` and `e > len` (its `s ≥ e` check is a debug-only
`debug_panic!`), so in a release build `VecDeque::drain(s..e)` panics
when `s > e` passes the two length guards: on queue `[A, B, C]` the range
`[2, 1)` panics instead of no-opping.  `none` is the embedded panic. -/
theorem queue_remove_range_panics_on_inverted_range :
    Audio.queue_remove_range collectionX 2 1 false audioLoaded stateABC0 =
      none := by decide

/-- C6.  Resolving a device name that matches exactly one device: the
intended behaviour (and `get_cpal_device`, device.rs) returns the device,
but `into_cpal_device` (output.rs) tests `matching_devices.len() == 0`
instead of `== 1` after the `is_empty` early-return, so the unique match
— indeed every non-empty match set — is rejected as
`InvalidOutputDevice`; it also never special-cases "Default Device". -/
theorem into_cpal_device_rejects_unique_match :
    into_cpal_device "X" [(7, some "X")] = DeviceResult.invalid_output_device ∧
    get_cpal_device "X" none [(7, some "X")] = DeviceResult.ok 7 ∧
    get_cpal_device "X" none [] = DeviceResult.invalid_output_device ∧
    get_cpal_device "X" none [(7, some "X"), (8, some "X")] =
      DeviceResult.invalid_output_device ∧
    get_cpal_device "Default Device" (some 3) [(7, some "X")] =
      DeviceResult.ok 3 ∧
    into_cpal_device "Default Device" [(7, some "X")] =
      DeviceResult.invalid_output_device := by decide

/-- C9.  If no `Exit(Result)` message ever arrives, the exit routine's
300 ms receive loop never terminates: once the counter passes 3 the
timeout arm only logs and never breaks, so for every bound `k` the loop
is still running after `k` attempts — contradicting the claimed bounded
wait (and the source's own "waits a max 900ms" comment). -/
theorem exit_wait_never_breaks_on_timeouts :
    ∀ k n, exit_wait_broken_within k n = false := by
  intro k
  induction k with
  | zero => intro n; rfl
  | succ k ih =>
    intro n
    by_cases h : n > 3 <;>
      simp [exit_wait_broken_within, exit_wait_step, h, ih]

/-- C10.  `queue_add_playlist` with a playlist that does not exist
(`valid_keys` returns `None`) or that has no valid keys returns before
the state lock is taken: even with `clear = true` and `play = true`
neither the engine fields nor any field of `AUDIO_STATE` changes. -/
theorem queue_add_playlist_missing_or_empty_noop (c : Collection)
    (append : Append) (clear play : Bool) (offset : Nat) (a : Audio)
    (s : AudioState) :
    Audio.queue_add_playlist c none append clear play offset a s = (a, s) ∧
    Audio.queue_add_playlist c (some []) append clear play offset a s =
      (a, s) := by
  constructor <;> rfl

theorem next_eq_of_get?_some (s : AudioState) (i k : Nat)
    (hi : s.queue_idx = some i) (hget : s.queue.get? (i + 1) = some k) :
    s.next = (some k, { s with song := some k, queue_idx := some (i + 1) }) := by
  rw [List.get?_eq_getElem?] at hget
  simp [AudioState.next, hi, hget]

theorem next_eq_of_get?_none (s : AudioState) (i : Nat)
    (hi : s.queue_idx = some i) (hget : s.queue.get? (i + 1) = none) :
    s.next = (none, s) := by
  rw [List.get?_eq_getElem?] at hget
  simp [AudioState.next, hi, hget]

theorem next_eq_of_idx_none (s : AudioState) (hi : s.queue_idx = none) :
    s.next = (none, s) := by
  simp [AudioState.next, hi]

/-- C5.  With `repeat = Off` and `queue_idx = Some(i)`, `skip(n)` for
`n ≥ 1` either advances to queue position `i + n` — setting that song and
index — when it is in bounds, or `finish()`es: song, index, elapsed and
runtime nulled, `playing = false`, and the queue left intact. -/
theorem skip_advances_or_finishes (c : Collection) (a : Audio)
    (s : AudioState) (n i : Nat) (hrep : s.repeat_mode = Repeat.Off)
    (hn : 1 ≤ n) (hi : s.queue_idx = some i) :
    (i + n < s.queue.length →
      (Audio.skip c n a s).2.song = some (s.queue.getD (i + n) 0) ∧
      (Audio.skip c n a s).2.queue_idx = some (i + n) ∧
      (Audio.skip c n a s).2.queue = s.queue) ∧
    (¬ i + n < s.queue.length →
      (Audio.skip c n a s).2 = s.finish) := by
  have hn0 : ¬ n = 0 := by omega
  by_cases h1 : n = 1
  · subst h1
    by_cases hl : i + 1 < s.queue.length
    · have hget : s.queue.get? (i + 1) = some (s.queue.getD (i + 1) 0) :=
        get?_getD _ _ hl
      have hnext := next_eq_of_get?_some s i _ hi hget
      constructor
      · intro _
        simp [Audio.skip, hrep, hnext, Audio.set]
      · intro hcon
        exact absurd hl hcon
    · have hget : s.queue.get? (i + 1) = none :=
        List.get?_eq_none.mpr (by omega)
      have hnext := next_eq_of_get?_none s i hi hget
      constructor
      · intro hcon
        exact absurd hcon hl
      · intro _
        simp [Audio.skip, hrep, hnext]
  · constructor
    · intro hlen
      simp [Audio.skip, hrep, h1, hn0, hi, hlen, Audio.set]
    · intro hlen
      have hlen' : ¬ s.queue.length > i + n := by omega
      simp [Audio.skip, hrep, h1, hn0, hi, hlen']

/-- Witness for C5 at the spec's scenario 4: queue `[A, B, C]`,
`queue_idx = 0`, `Skip(5)` finishes with the queue intact. -/
theorem skip_advances_or_finishes_witness :
    (stateABC0.repeat_mode = Repeat.Off ∧ 1 ≤ 5 ∧
      stateABC0.queue_idx = some 0 ∧ ¬ 0 + 5 < stateABC0.queue.length) ∧
    (Audio.skip collectionX 5 audioLoaded stateABC0).2 = stateABC0.finish :=
  ⟨by decide,
   (skip_advances_or_finishes collectionX audioLoaded stateABC0 5 0
     (by decide) (by decide) (by decide)).2 (by decide)⟩

/-- C4.  `back(n, threshold)` with a non-empty queue and
`queue_idx = Some(i)`: if `i < n` it jumps to queue index 0 and sets
`queue[0]`; otherwise, with effective threshold `t` (the provided value,
or the `PREVIOUS_THRESHOLD` atomic `th` when `None`), if `t > 0` and
`elapsed > t` it stores a pending absolute seek to 0 — restarting the
current song, all state unchanged — and otherwise sets the song at
`i - n` with `queue_idx = Some(i - n)` and `elapsed = 0`. -/
theorem back_jumps_restarts_or_decrements (c : Collection) (a : Audio)
    (s : AudioState) (n i : Nat) (threshold : Option Nat) (th : Nat)
    (hq : s.queue ≠ []) (hi : s.queue_idx = some i) :
    (i < n →
      (Audio.back c n threshold th a s).2.song = some (s.queue.getD 0 0) ∧
      (Audio.back c n threshold th a s).2.queue_idx = some 0) ∧
    (¬ i < n →
      ((threshold.getD th ≠ 0 ∧ s.elapsed > threshold.getD th) →
        a.current = true →
        Audio.back c n threshold th a s = ({ a with seek_time := some 0 }, s)) ∧
      (¬ (threshold.getD th ≠ 0 ∧ s.elapsed > threshold.getD th) →
        (Audio.back c n threshold th a s).2.song =
          some (s.queue.getD (i - n) 0) ∧
        (Audio.back c n threshold th a s).2.queue_idx = some (i - n) ∧
        (Audio.back c n threshold th a s).2.elapsed = 0)) := by
  have hq' : s.queue.isEmpty = false := by
    simpa [List.isEmpty_iff] using hq
  constructor
  · intro hlt
    simp [Audio.back, hq', hi, hlt, Audio.set]
  · intro hge
    constructor
    · intro ht hc
      cases threshold with
      | none =>
        simp only [Option.getD_none] at ht
        simp [Audio.back, hq', hi, if_neg hge, ht, Audio.seek, hc,
          Nat.not_lt_zero]
      | some t =>
        simp only [Option.getD_some] at ht
        simp [Audio.back, hq', hi, if_neg hge, ht, Audio.seek, hc,
          Nat.not_lt_zero]
    · intro ht
      cases threshold with
      | none =>
        simp only [Option.getD_none] at ht
        simp [Audio.back, hq', hi, if_neg hge, ht, Audio.set]
      | some t =>
        simp only [Option.getD_some] at ht
        simp [Audio.back, hq', hi, if_neg hge, ht, Audio.set]

/-- Witness for C4 at the spec's scenarios 1 and 2: queue `[A, B, C]`,
`queue_idx = 1`, `PREVIOUS_THRESHOLD = 3`, `Previous(None)`; with
`elapsed = 10` the current song is restarted via a pending seek to 0,
with `elapsed = 1` the engine sets `A` at index 0. -/
theorem back_jumps_restarts_or_decrements_witness :
    (stateABC1.queue ≠ [] ∧ stateABC1.queue_idx = some 1 ∧ ¬ 1 < 1 ∧
      (Option.getD none 3 ≠ 0 ∧ stateABC1.elapsed > Option.getD none 3) ∧
      audioLoaded.current = true) ∧
    Audio.back collectionX 1 none 3 audioLoaded stateABC1 =
      ({ audioLoaded with seek_time := some 0 }, stateABC1) ∧
    (Audio.back collectionX 1 none 3 audioLoaded
        { stateABC1 with elapsed := 1 }).2.song = some 10 ∧
    (Audio.back collectionX 1 none 3 audioLoaded
        { stateABC1 with elapsed := 1 }).2.queue_idx = some 0 :=
  ⟨by decide,
   ((back_jumps_restarts_or_decrements collectionX audioLoaded stateABC1
       1 1 none 3 (by decide) (by decide)).2 (by decide)).1 (by decide)
     (by decide),
   by
    have h := ((back_jumps_restarts_or_decrements collectionX audioLoaded
      { stateABC1 with elapsed := 1 } 1 1 none 3 (by decide)
      (by decide)).2 (by decide)).2 (by decide)
    exact ⟨h.1, h.2.1⟩⟩

/-- C8.  `shuffle` on a non-empty queue, with the PRNG's permutation `sh`
of the queue supplied as an oracle: the new queue is a permutation of the
old (same multiset of `SongKey`s, same length), `queue_idx = Some(0)`,
and the song at the new `queue[0]` becomes current. -/
theorem shuffle_preserves_multiset (c : Collection) (a : Audio)
    (s : AudioState) (sh : List Nat) (hq : s.queue ≠ [])
    (hp : s.queue.Perm sh) :
    (Audio.shuffle c sh a s).2.queue.Perm s.queue ∧
    (Audio.shuffle c sh a s).2.queue.length = s.queue.length ∧
    (Audio.shuffle c sh a s).2.queue_idx = some 0 ∧
    (Audio.shuffle c sh a s).2.song =
      (Audio.shuffle c sh a s).2.queue.get? 0 := by
  have hq' : s.queue.isEmpty = false := by
    simpa [List.isEmpty_iff] using hq
  have hlen : 0 < sh.length := hp.length_eq ▸ List.length_pos.mpr hq
  simp only [Audio.shuffle, hq', Bool.false_eq_true, if_false, Audio.set]
  refine ⟨hp.symm, hp.length_eq.symm, by trivial, ?_⟩
  exact (get?_getD sh 0 hlen).symm

/-- Witness for C8: shuffling `[A, B, C]` into `[C, A, B]`. -/
theorem shuffle_preserves_multiset_witness :
    (stateABC0.queue ≠ [] ∧ stateABC0.queue.Perm [12, 10, 11]) ∧
    (Audio.shuffle collectionX [12, 10, 11] audioLoaded stateABC0).2.queue.Perm
      stateABC0.queue ∧
    (Audio.shuffle collectionX [12, 10, 11] audioLoaded
      stateABC0).2.queue_idx = some 0 ∧
    (Audio.shuffle collectionX [12, 10, 11] audioLoaded stateABC0).2.song =
      some 12 :=
  ⟨⟨by decide, by decide⟩,
   (shuffle_preserves_multiset collectionX audioLoaded stateABC0
      [12, 10, 11] (by decide) (by decide)).1,
   (shuffle_preserves_multiset collectionX audioLoaded stateABC0
      [12, 10, 11] (by decide) (by decide)).2.2.1,
   by
    have h := (shuffle_preserves_multiset collectionX audioLoaded stateABC0
      [12, 10, 11] (by decide) (by decide)).2.2.2
    rw [h]
    decide⟩

/-- Counterexample for C2.  In the spec's scenario 6 — queue
`[A, B, C, D, E]`, `queue_idx = 2`, `QueueRemoveRange([1,4), next=true)`
— the claim expects `queue_idx = 0` and the current song set to `A`; the
code's reset-to-0 rule additionally requires `s = 0` (and `e < len`), and
neither the keep-index rule (`queue_idx ≠ s`) nor the decrement rule
(`queue_idx < e`) fires, so `queue_idx` is left dangling at `Some(2)`
(the new queue `[A, E]` has length 2) and the song stays `C`. -/
theorem queue_remove_range_scenario_counterexample :
    Audio.queue_remove_range collectionX 1 4 true audioLoaded stateABCDE =
      some (audioLoaded, { stateABCDE with queue := [10, 14] }) ∧
    Option.map (fun p => p.2.queue_idx)
      (Audio.queue_remove_range collectionX 1 4 true audioLoaded stateABCDE)
      ≠ some (some 0) ∧
    Option.map (fun p => p.2.song)
      (Audio.queue_remove_range collectionX 1 4 true audioLoaded stateABCDE)
      ≠ some (some 10) := by decide

theorem get?_take_append_drop (l : List Nat) (start stop i : Nat)
    (hsl : start ≤ l.length) (h3 : start ≤ stop) (hstop : stop ≤ i) :
    (l.take start ++ l.drop stop).get? (i - (stop - start)) = l.get? i := by
  have hlt : (l.take start).length = start := by
    rw [List.length_take]
    omega
  rw [List.get?_append_right (by omega)]
  rw [hlt]
  have heq : i - (stop - start) - start = i - stop := by omega
  rw [heq, List.get?_drop]
  congr 1
  omega

/-- C2 (amended).  For `queue_remove_range([s,e), next)` with
`s ≤ e`, `s < len`, `e ≤ len`, the drain succeeds (no panic) and the new
queue is the old one with `[s,e)` spliced out; `queue_idx` is then
adjusted by the code's rules: (a) when `s = 0`, the index was inside the
removed range, and `e < len`, reset to 0 and, if `next`, set the new
`queue[0]`; (b) otherwise when `next` and `queue_idx = s`, keep the index
and set the song now at that position if it is still in bounds; (c)
otherwise when `queue_idx ≥ e`, decrement the index by `e - s` (the
remapped position holds the same song); in every remaining case —
including the spec's scenario 6, where the index was removed but `s ≠ 0`
— `queue_idx` and `song` are left unchanged. -/
theorem queue_remove_range_rules (c : Collection) (a : Audio)
    (s : AudioState) (start stop : Nat) (next : Bool)
    (h1 : start < s.queue.length) (h2 : stop ≤ s.queue.length)
    (h3 : start ≤ stop) :
    Audio.queue_remove_range c start stop next a s ≠ none ∧
    ∀ a' s', Audio.queue_remove_range c start stop next a s = some (a', s') →
      s'.queue = s.queue.take start ++ s.queue.drop stop ∧
      (s.queue_idx = none → s'.queue_idx = none ∧ s'.song = s.song) ∧
      ∀ i, s.queue_idx = some i →
        ((start = 0 ∧ i < stop ∧ stop < s.queue.length) →
          s'.queue_idx = some 0 ∧
          (next = true → s'.song = some (s'.queue.getD 0 0)) ∧
          (next = false → s'.song = s.song)) ∧
        (¬ (start = 0 ∧ i < stop ∧ stop < s.queue.length) →
          ((next = true ∧ i = start) →
            s'.queue_idx = some i ∧
            (i < s'.queue.length → s'.song = some (s'.queue.getD i 0)) ∧
            (¬ i < s'.queue.length → s'.song = s.song)) ∧
          (¬ (next = true ∧ i = start) →
            (stop ≤ i →
              s'.queue_idx = some (i - (stop - start)) ∧ s'.song = s.song ∧
              s'.queue.get? (i - (stop - start)) = s.queue.get? i) ∧
            (¬ stop ≤ i →
              s'.queue_idx = some i ∧ s'.song = s.song))) := by
  have g1 : ¬ start ≥ s.queue.length := by omega
  have g2 : ¬ stop > s.queue.length := by omega
  have g3 : ¬ start > stop := by omega
  constructor
  · rw [Audio.queue_remove_range]
    simp only [g1, g2, g3, if_false, ite_false]
    split
    all_goals try split
    all_goals try split
    all_goals try split
    all_goals simp
  · intro a' s' heq
    rw [Audio.queue_remove_range] at heq
    simp only [g1, g2, g3, if_false, ite_false] at heq
    cases hidx : s.queue_idx with
    | none =>
      rw [hidx] at heq
      simp only at heq
      injection heq with heq
      obtain ⟨_, hs'⟩ := Prod.mk.injEq .. ▸ heq
      subst hs'
      exact ⟨rfl, fun _ => ⟨rfl, rfl⟩,
        fun i hi => Option.noConfusion hi⟩
    | some i =>
      rw [hidx] at heq
      simp only at heq
      split at heq
      · rename_i hA
        obtain ⟨hA0, hAc, hAl⟩ := hA
        have hAis : start ≤ i ∧ i < stop := by simpa using hAc
        split at heq
        · rename_i hnx
          injection heq with heq
          simp only [Audio.set] at heq
          obtain ⟨_, hs'⟩ := Prod.mk.injEq .. ▸ heq
          subst hs'
          refine ⟨rfl, fun h => Option.noConfusion h,
            fun j hj => ?_⟩
          injection hj with hj
          subst hj
          refine ⟨fun _ => ⟨rfl, fun _ => rfl, fun hf => ?_⟩,
            fun hcon => absurd ⟨hA0, hAis.2, by omega⟩ hcon⟩
          rw [hf] at hnx
          exact Bool.noConfusion hnx
        · rename_i hnx
          injection heq with heq
          obtain ⟨_, hs'⟩ := Prod.mk.injEq .. ▸ heq
          subst hs'
          refine ⟨rfl, fun h => Option.noConfusion h,
            fun j hj => ?_⟩
          injection hj with hj
          subst hj
          refine ⟨fun _ => ⟨rfl, fun ht => absurd ht hnx, fun _ => rfl⟩,
            fun hcon => absurd ⟨hA0, hAis.2, by omega⟩ hcon⟩
      · rename_i hA
        have hA' : ¬ (start = 0 ∧ i < stop ∧ stop < s.queue.length) := by
          intro hx
          exact hA ⟨hx.1, by simpa using And.intro (by omega) hx.2.1, by omega⟩
        split at heq
        · rename_i hB
          obtain ⟨hBn, hBi⟩ := hB
          split at heq
          · rename_i key hget
            injection heq with heq
            simp only [Audio.set] at heq
            obtain ⟨_, hs'⟩ := Prod.mk.injEq .. ▸ heq
            subst hs'
            refine ⟨rfl, fun h => Option.noConfusion h,
              fun j hj => ?_⟩
            injection hj with hj
            subst hj
            refine ⟨fun hcon => absurd hcon hA', fun _ =>
              ⟨fun _ => ⟨rfl, fun hil => ?_, fun hnl => ?_⟩,
               fun hcon => absurd ⟨hBn, hBi⟩ hcon⟩⟩
            · have hg := get?_getD _ _ hil
              rw [hget] at hg
              injection hg with hg
              simp [hg]
            · exfalso
              apply hnl
              simp only
              by_contra hc
              rw [List.get?_eq_none.mpr (by omega)] at hget
              exact Option.noConfusion hget
          · rename_i hget
            injection heq with heq
            obtain ⟨_, hs'⟩ := Prod.mk.injEq .. ▸ heq
            subst hs'
            refine ⟨rfl, fun h => Option.noConfusion h,
              fun j hj => ?_⟩
            injection hj with hj
            subst hj
            refine ⟨fun hcon => absurd hcon hA', fun _ =>
              ⟨fun _ => ⟨rfl, fun hil => ?_, fun _ => rfl⟩,
               fun hcon => absurd ⟨hBn, hBi⟩ hcon⟩⟩
            exfalso
            rw [List.get?_eq_none] at hget
            simp only at hil
            omega
        · rename_i hB
          split at heq
          · rename_i hC
            injection heq with heq
            obtain ⟨_, hs'⟩ := Prod.mk.injEq .. ▸ heq
            subst hs'
            refine ⟨rfl, fun h => Option.noConfusion h,
              fun j hj => ?_⟩
            injection hj with hj
            subst hj
            refine ⟨fun hcon => absurd hcon hA', fun _ =>
              ⟨fun hcon => absurd hcon hB, fun _ =>
                ⟨fun _ => ⟨rfl, rfl, ?_⟩, fun hcon => absurd hC hcon⟩⟩⟩
            exact get?_take_append_drop s.queue start stop i (by omega) (by omega) hC
          · rename_i hC
            injection heq with heq
            obtain ⟨_, hs'⟩ := Prod.mk.injEq .. ▸ heq
            subst hs'
            refine ⟨rfl, fun h => Option.noConfusion h,
              fun j hj => ?_⟩
            injection hj with hj
            subst hj
            exact ⟨fun hcon => absurd hcon hA', fun _ =>
              ⟨fun hcon => absurd hcon hB, fun _ =>
                ⟨fun hcon => absurd hcon hC, fun _ => ⟨rfl, rfl⟩⟩⟩⟩

/-- Witness for C2 at the spec's scenario 6 inputs: queue
`[A, B, C, D, E]`, `queue_idx = 2`, `QueueRemoveRange([1,4), next=true)`
does not panic and leaves queue `[A, E]`. -/
theorem queue_remove_range_rules_witness :
    (1 < stateABCDE.queue.length ∧ 4 ≤ stateABCDE.queue.length ∧
      (1 : Nat) ≤ 4) ∧
    Audio.queue_remove_range collectionX 1 4 true audioLoaded stateABCDE
      ≠ none ∧
    ({ stateABCDE with queue := [10, 14] } : AudioState).queue =
      stateABCDE.queue.take 1 ++ stateABCDE.queue.drop 4 :=
  ⟨by decide,
   (queue_remove_range_rules collectionX audioLoaded stateABCDE 1 4 true
     (by decide) (by decide) (by decide)).1,
   ((queue_remove_range_rules collectionX audioLoaded stateABCDE 1 4 true
     (by decide) (by decide) (by decide)).2 audioLoaded
     { stateABCDE with queue := [10, 14] } (by decide)).1⟩

/-- Counterexample for C7.  Inserting the playlist `[X, Y, Z]` at the
head of an empty queue with `QueueAddPlaylist(Index(0), clear=false,
play=true, offset=1)`: the claim says the starting song (offset 1, `Y`)
becomes the current song with `queue_idx` at its position, but the
source's head test `if i == 0` runs on the counter after the insertion
loop advanced it, so no song is set at all: `song = None` and
`queue_idx = None` while the queue became `[X, Y, Z]` and `playing`
was forced on. -/
theorem queue_add_playlist_index_counterexample :
    (Audio.queue_add_playlist collectionX (some [20, 21, 22])
        (Append.Index 0) false true 1 audioIdle stateEmpty).2 =
      { stateEmpty with queue := [20, 21, 22], playing := true } ∧
    (Audio.queue_add_playlist collectionX (some [20, 21, 22])
        (Append.Index 0) false true 1 audioIdle stateEmpty).2.song ≠
      some 21 ∧
    (Audio.queue_add_playlist collectionX (some [20, 21, 22])
        (Append.Index 0) false true 1 audioIdle stateEmpty).2.song =
      none := by decide

/-- C7 (amended).  For every queue-add operation the starting song is
the one selected by `offset` (`offset ≥ count` treated as 0; a single
`queue_add_song` has no offset).  After the append: `Front` always sets
that song as current with `queue_idx = offset`, which is its position in
the new queue; `Back` does the same when nothing was playing
(`queue_idx = offset`, the position inside the appended block, not the
absolute queue position); `Index(0)` on song/album/artist sets the
starting song with `queue_idx = 0`; but `queue_add_playlist`'s `Index`
arm never sets a starting song — its head test reads the insertion
counter after it has been advanced — leaving `song` and `queue_idx`
unchanged for every in-bounds insertion position, the head included
(beyond the queue length the source's `VecDeque::insert` panics, so the
statement quantifies only over `j ≤ len`). -/
theorem queue_add_head_sets_starting_song (c : Collection) (a : Audio)
    (s : AudioState) (key offset : Nat) (play : Bool) (keys : List Nat)
    (hkeys : c.albums.getD key [] ≠ [])
    (hart : c.artists.getD key [] ≠ [])
    (hpl : keys ≠ []) :
    (∀ cl : Bool,
      (Audio.queue_add_song c key Append.Front cl play a s).2.song =
        some key ∧
      (Audio.queue_add_song c key Append.Front cl play a s).2.queue_idx =
        some 0 ∧
      (Audio.queue_add_song c key Append.Front cl play a s).2.queue.get? 0 =
        some key) ∧
    (a.current = false →
      (Audio.queue_add_song c key Append.Back false play a s).2.song =
        some key ∧
      (Audio.queue_add_song c key Append.Back false play a s).2.queue_idx =
        some 0) ∧
    ((Audio.queue_add_song c key (Append.Index 0) false play a s).2.song =
        some key ∧
      (Audio.queue_add_song c key (Append.Index 0) false play a s).2.queue_idx =
        some 0) ∧
    (∀ cl : Bool,
      (Audio.queue_add_album c key Append.Front cl play offset a s).2.song =
        some ((c.albums.getD key []).getD
          (if offset ≥ (c.albums.getD key []).length then 0 else offset) 0) ∧
      (Audio.queue_add_album c key Append.Front cl play offset a s).2.queue_idx =
        some (if offset ≥ (c.albums.getD key []).length then 0 else offset) ∧
      (Audio.queue_add_album c key Append.Front cl play offset a s).2.queue.get?
          (if offset ≥ (c.albums.getD key []).length then 0 else offset) =
        some ((c.albums.getD key []).getD
          (if offset ≥ (c.albums.getD key []).length then 0 else offset) 0)) ∧
    (a.current = false →
      (Audio.queue_add_album c key Append.Back false play offset a s).2.song =
        some ((c.albums.getD key []).getD
          (if offset ≥ (c.albums.getD key []).length then 0 else offset) 0) ∧
      (Audio.queue_add_album c key Append.Back false play offset a s).2.queue_idx =
        some (if offset ≥ (c.albums.getD key []).length then 0 else offset)) ∧
    ((Audio.queue_add_album c key (Append.Index 0) false play offset a s).2.song =
        some ((c.albums.getD key []).getD
          (if offset ≥ (c.albums.getD key []).length then 0 else offset) 0) ∧
      (Audio.queue_add_album c key (Append.Index 0) false play offset a s).2.queue_idx =
        some 0) ∧
    (∀ cl : Bool,
      (Audio.queue_add_artist c key Append.Front cl play offset a s).2.song =
        some ((c.artists.getD key []).getD
          (if offset ≥ (c.artists.getD key []).length then 0 else offset) 0) ∧
      (Audio.queue_add_artist c key Append.Front cl play offset a s).2.queue_idx =
        some (if offset ≥ (c.artists.getD key []).length then 0 else offset) ∧
      (Audio.queue_add_artist c key Append.Front cl play offset a s).2.queue.get?
          (if offset ≥ (c.artists.getD key []).length then 0 else offset) =
        some ((c.artists.getD key []).getD
          (if offset ≥ (c.artists.getD key []).length then 0 else offset) 0)) ∧
    (a.current = false →
      (Audio.queue_add_artist c key Append.Back false play offset a s).2.song =
        some ((c.artists.getD key []).getD
          (if offset ≥ (c.artists.getD key []).length then 0 else offset) 0) ∧
      (Audio.queue_add_artist c key Append.Back false play offset a s).2.queue_idx =
        some (if offset ≥ (c.artists.getD key []).length then 0 else offset)) ∧
    ((Audio.queue_add_artist c key (Append.Index 0) false play offset a s).2.song =
        some ((c.artists.getD key []).getD
          (if offset ≥ (c.artists.getD key []).length then 0 else offset) 0) ∧
      (Audio.queue_add_artist c key (Append.Index 0) false play offset a s).2.queue_idx =
        some 0) ∧
    (∀ cl : Bool,
      (Audio.queue_add_playlist c (some keys) Append.Front cl play offset
          a s).2.song =
        some (keys.getD (if offset ≥ keys.length then 0 else offset) 0) ∧
      (Audio.queue_add_playlist c (some keys) Append.Front cl play offset
          a s).2.queue_idx =
        some (if offset ≥ keys.length then 0 else offset) ∧
      (Audio.queue_add_playlist c (some keys) Append.Front cl play offset
          a s).2.queue.get? (if offset ≥ keys.length then 0 else offset) =
        some (keys.getD (if offset ≥ keys.length then 0 else offset) 0)) ∧
    (a.current = false →
      (Audio.queue_add_playlist c (some keys) Append.Back false play offset
          a s).2.song =
        some (keys.getD (if offset ≥ keys.length then 0 else offset) 0) ∧
      (Audio.queue_add_playlist c (some keys) Append.Back false play offset
          a s).2.queue_idx =
        some (if offset ≥ keys.length then 0 else offset)) ∧
    (∀ j, j ≤ s.queue.length →
      (Audio.queue_add_playlist c (some keys) (Append.Index j) false play
          offset a s).2.song = s.song ∧
      (Audio.queue_add_playlist c (some keys) (Append.Index j) false play
          offset a s).2.queue_idx = s.queue_idx) := by
  have hoff : (if offset ≥ (c.albums.getD key []).length then 0 else offset)
      < (c.albums.getD key []).length := by
    by_cases h : offset ≥ (c.albums.getD key []).length
    · rw [if_pos h]
      exact List.length_pos.mpr hkeys
    · rw [if_neg h]
      omega
  have hoffR : (if offset ≥ (c.artists.getD key []).length then 0 else offset)
      < (c.artists.getD key []).length := by
    by_cases h : offset ≥ (c.artists.getD key []).length
    · rw [if_pos h]
      exact List.length_pos.mpr hart
    · rw [if_neg h]
      omega
  have hoffP : (if offset ≥ keys.length then 0 else offset) < keys.length := by
    by_cases h : offset ≥ keys.length
    · rw [if_pos h]
      exact List.length_pos.mpr hpl
    · rw [if_neg h]
      omega
  have hke : keys.isEmpty = false := by
    simpa [List.isEmpty_iff] using hpl
  refine ⟨?_, ?_, ?_, ?_, ?_, ?_, ?_, ?_, ?_, ?_, ?_, ?_⟩
  · intro cl
    refine ⟨?_, ?_, ?_⟩
    · cases cl <;> cases play <;>
        simp [Audio.queue_add_song, Audio.clear, Audio.set,
          Audio.inner_play, AudioState.finish]
    · cases cl <;> cases play <;>
        simp [Audio.queue_add_song, Audio.clear, Audio.set,
          Audio.inner_play, AudioState.finish]
    · have hq : (Audio.queue_add_song c key Append.Front cl play
            a s).2.queue = key :: (if cl then [] else s.queue) := by
        cases cl <;> cases play <;>
          simp [Audio.queue_add_song, Audio.clear, Audio.set,
            Audio.inner_play, AudioState.finish]
      rw [hq]
      rfl
  · intro hcur
    cases play with
    | true =>
      exact ⟨by simp [Audio.queue_add_song, Audio.set, Audio.inner_play,
          hcur],
        by simp [Audio.queue_add_song, Audio.set, Audio.inner_play, hcur]⟩
    | false =>
      exact ⟨by simp [Audio.queue_add_song, Audio.set, hcur],
        by simp [Audio.queue_add_song, Audio.set, hcur]⟩
  · cases play with
    | true =>
      exact ⟨by simp [Audio.queue_add_song, Audio.set, Audio.inner_play],
        by simp [Audio.queue_add_song, Audio.set, Audio.inner_play]⟩
    | false =>
      exact ⟨by simp [Audio.queue_add_song, Audio.set],
        by simp [Audio.queue_add_song, Audio.set]⟩
  · intro cl
    refine ⟨?_, ?_, ?_⟩
    · cases cl <;> cases play <;>
        simp [Audio.queue_add_album, Audio.clear, Audio.set,
          Audio.inner_play, AudioState.finish]
    · cases cl <;> cases play <;>
        simp [Audio.queue_add_album, Audio.clear, Audio.set,
          Audio.inner_play, AudioState.finish]
    · have hq : (Audio.queue_add_album c key Append.Front cl play offset
            a s).2.queue =
          c.albums.getD key [] ++ (if cl then [] else s.queue) := by
        cases cl <;> cases play <;>
          simp [Audio.queue_add_album, Audio.clear, Audio.set,
            Audio.inner_play, AudioState.finish]
      rw [hq, List.get?_append hoff]
      exact get?_getD _ _ hoff
  · intro hcur
    cases play with
    | true =>
      exact ⟨by simp [Audio.queue_add_album, Audio.set, Audio.inner_play,
          hcur],
        by simp [Audio.queue_add_album, Audio.set, Audio.inner_play, hcur]⟩
    | false =>
      exact ⟨by simp [Audio.queue_add_album, Audio.set, hcur],
        by simp [Audio.queue_add_album, Audio.set, hcur]⟩
  · cases play with
    | true =>
      exact ⟨by simp [Audio.queue_add_album, Audio.set, Audio.inner_play],
        by simp [Audio.queue_add_album, Audio.set, Audio.inner_play]⟩
    | false =>
      exact ⟨by simp [Audio.queue_add_album, Audio.set],
        by simp [Audio.queue_add_album, Audio.set]⟩
  · intro cl
    refine ⟨?_, ?_, ?_⟩
    · cases cl <;> cases play <;>
        simp [Audio.queue_add_artist, Audio.clear, Audio.set,
          Audio.inner_play, AudioState.finish]
    · cases cl <;> cases play <;>
        simp [Audio.queue_add_artist, Audio.clear, Audio.set,
          Audio.inner_play, AudioState.finish]
    · have hq : (Audio.queue_add_artist c key Append.Front cl play offset
            a s).2.queue =
          c.artists.getD key [] ++ (if cl then [] else s.queue) := by
        cases cl <;> cases play <;>
          simp [Audio.queue_add_artist, Audio.clear, Audio.set,
            Audio.inner_play, AudioState.finish]
      rw [hq, List.get?_append hoffR]
      exact get?_getD _ _ hoffR
  · intro hcur
    cases play with
    | true =>
      exact ⟨by simp [Audio.queue_add_artist, Audio.set, Audio.inner_play,
          hcur],
        by simp [Audio.queue_add_artist, Audio.set, Audio.inner_play, hcur]⟩
    | false =>
      exact ⟨by simp [Audio.queue_add_artist, Audio.set, hcur],
        by simp [Audio.queue_add_artist, Audio.set, hcur]⟩
  · cases play with
    | true =>
      exact ⟨by simp [Audio.queue_add_artist, Audio.set, Audio.inner_play],
        by simp [Audio.queue_add_artist, Audio.set, Audio.inner_play]⟩
    | false =>
      exact ⟨by simp [Audio.queue_add_artist, Audio.set],
        by simp [Audio.queue_add_artist, Audio.set]⟩
  · intro cl
    refine ⟨?_, ?_, ?_⟩
    · cases cl <;> cases play <;>
        simp [Audio.queue_add_playlist, hke, Audio.clear, Audio.set,
          Audio.inner_play, AudioState.finish]
    · cases cl <;> cases play <;>
        simp [Audio.queue_add_playlist, hke, Audio.clear, Audio.set,
          Audio.inner_play, AudioState.finish]
    · have hq : (Audio.queue_add_playlist c (some keys) Append.Front cl
            play offset a s).2.queue =
          keys ++ (if cl then [] else s.queue) := by
        cases cl <;> cases play <;>
          simp [Audio.queue_add_playlist, hke, Audio.clear, Audio.set,
            Audio.inner_play, AudioState.finish]
      rw [hq, List.get?_append hoffP]
      exact get?_getD _ _ hoffP
  · intro hcur
    cases play with
    | true =>
      exact ⟨by simp [Audio.queue_add_playlist, hke, Audio.set,
          Audio.inner_play, hcur],
        by simp [Audio.queue_add_playlist, hke, Audio.set,
          Audio.inner_play, hcur]⟩
    | false =>
      exact ⟨by simp [Audio.queue_add_playlist, hke, Audio.set, hcur],
        by simp [Audio.queue_add_playlist, hke, Audio.set, hcur]⟩
  · intro j _
    have hne : ¬ j + keys.length = 0 := by
      have := List.length_pos.mpr hpl
      omega
    cases play with
    | true =>
      exact ⟨by simp [Audio.queue_add_playlist, hke, hne, Audio.inner_play],
        by simp [Audio.queue_add_playlist, hke, hne, Audio.inner_play]⟩
    | false =>
      exact ⟨by simp [Audio.queue_add_playlist, hke, hne],
        by simp [Audio.queue_add_playlist, hke, hne]⟩

/-- Witness for C7 at the spec's scenario 5: empty queue, album
`[X, Y, Z]`, `QueueAddAlbum(Front, clear=false, play=true, offset=1)`
yields queue `[X, Y, Z]`, `queue_idx = 1`, song `Y`; the artist-Front
and playlist-Index(0) conjuncts are exercised at the same state. -/
theorem queue_add_head_sets_starting_song_witness :
    (collectionX.albums.getD 0 [] ≠ [] ∧ collectionX.artists.getD 0 [] ≠ []
      ∧ ([20, 21, 22] : List Nat) ≠ [] ∧ 0 ≤ stateEmpty.queue.length) ∧
    (Audio.queue_add_album collectionX 0 Append.Front false true 1
      audioIdle stateEmpty).2.song = some 21 ∧
    (Audio.queue_add_album collectionX 0 Append.Front false true 1
      audioIdle stateEmpty).2.queue_idx = some 1 ∧
    (Audio.queue_add_artist collectionX 0 Append.Front false true 0
      audioIdle stateEmpty).2.song = some 30 ∧
    (Audio.queue_add_playlist collectionX (some [20, 21, 22])
      (Append.Index 0) false true 1 audioIdle stateEmpty).2.song =
      stateEmpty.song :=
  ⟨by decide,
   by
    have h := ((queue_add_head_sets_starting_song collectionX audioIdle
      stateEmpty 0 1 true [20, 21, 22] (by decide) (by decide)
      (by decide)).2.2.2.1 false).1
    simpa using h,
   by
    have h := ((queue_add_head_sets_starting_song collectionX audioIdle
      stateEmpty 0 1 true [20, 21, 22] (by decide) (by decide)
      (by decide)).2.2.2.1 false).2.1
    simpa using h,
   by
    have h := ((queue_add_head_sets_starting_song collectionX audioIdle
      stateEmpty 0 0 true [20, 21, 22] (by decide) (by decide)
      (by decide)).2.2.2.2.2.2.1 false).1
    simpa using h,
   by
    have h := ((queue_add_head_sets_starting_song collectionX audioIdle
      stateEmpty 0 1 true [20, 21, 22] (by decide) (by decide)
      (by decide)).2.2.2.2.2.2.2.2.2.2.2 0 (by decide)).1
    simpa using h⟩

/-- Counterexample for C1.  `clear(keep_playing = true)` — reachable as
the public `Clear(true)` command, and listed by the claim — empties the
queue but, because `keep_playing` holds, skips the `finish()` that would
null `song`/`queue_idx` and stop playback: from the valid state
(queue `[A]`, `queue_idx = 0`, song `A`, playing) it produces an empty
queue with `queue_idx = Some(0)`, `song = Some(A)` and `playing = true`,
violating both halves of the queue-integrity invariant. -/
theorem clear_true_violates_queue_integrity :
    Inv stateOneSong ∧ ¬ Inv (Audio.clear true audioLoaded stateOneSong).2 := by
  constructor
  · constructor
    · intro i hi
      have hi' : (0 : Nat) = i := Option.some.inj hi
      cases hi'
      exact ⟨by decide, by decide⟩
    · intro he
      exact absurd he (by decide)
  · intro hinv
    have h2 := hinv.2 (by decide)
    exact absurd h2.1 (by decide)

theorem skip_wrap_inv (c : Collection) (a : Audio) (s : AudioState)
    (h : Inv s) : Inv (Audio.skip_wrap c a s).2 := by
  rw [Audio.skip_wrap]
  cases hq : s.queue.isEmpty with
  | true =>
    by_cases hqp : s.repeat_mode = Repeat.QueuePause
    · simp only [hqp, if_true]
      exact inv_playing_false s h
    · simp only [hqp, if_false]
      exact h
  | false =>
    have hlen : 0 < s.queue.length := by
      cases hql : s.queue with
      | nil => rw [hql] at hq; simp at hq
      | cons x xs => simp
    have hbase : Inv { (Audio.set c (s.queue.getD 0 0) a s).2 with
        song := some (s.queue.getD 0 0), queue_idx := some 0 } :=
      inv_of_eqs s.queue 0 _ hlen rfl rfl rfl
    by_cases hqp : s.repeat_mode = Repeat.QueuePause
    · simp only [hqp, if_true, Bool.false_eq_true, if_false]
      exact inv_playing_false _ hbase
    · simp only [hqp, if_false, Bool.false_eq_true]
      exact hbase

theorem skip_inv (c : Collection) (n : Nat) (a : Audio) (s : AudioState)
    (h : Inv s) : Inv (Audio.skip c n a s).2 := by
  by_cases h0 : n = 0
  · simpa [Audio.skip, h0] using h
  by_cases hsong : s.repeat_mode = Repeat.Song
  · rw [Audio.skip]
    simp only [h0, if_false, hsong, if_true, ite_false, ite_true]
    cases hs : s.song with
    | none => exact h
    | some key =>
      obtain ⟨hp1, hp2⟩ := h
      constructor
      · intro i hi
        have hx := hp1 i hi
        refine ⟨hx.1, ?_⟩
        have hx2 := hx.2
        rw [hs] at hx2
        exact hx2
      · intro he
        exact absurd ((hp2 he).2.1.symm.trans hs) (by simp)
  by_cases h1 : n = 1
  · rw [Audio.skip]
    simp only [h0, hsong, h1, if_false, if_true, ite_false, ite_true]
    cases hidx : s.queue_idx with
    | none =>
      rw [next_eq_of_idx_none s hidx]
      by_cases hrep : s.repeat_mode = Repeat.Queue ∨
          s.repeat_mode = Repeat.QueuePause
      · simp only [hrep, if_true, ite_true]
        exact skip_wrap_inv c a s h
      · simp only [hrep, if_false, ite_false]
        exact inv_finish s
    | some i =>
      cases hget : s.queue.get? (i + 1) with
      | some k =>
        rw [next_eq_of_get?_some s i k hidx hget]
        have hlt : i + 1 < s.queue.length := by
          by_contra hc
          rw [List.get?_eq_none.mpr (by omega)] at hget
          exact Option.noConfusion hget
        have hk : s.queue.getD (i + 1) 0 = k := by
          have hg := get?_getD s.queue (i + 1) hlt
          rw [hget] at hg
          exact (Option.some.inj hg).symm
        exact inv_of_eqs s.queue (i + 1) _ hlt rfl rfl (by rw [hk]; rfl)
      | none =>
        rw [next_eq_of_get?_none s i hidx hget]
        by_cases hrep : s.repeat_mode = Repeat.Queue ∨
            s.repeat_mode = Repeat.QueuePause
        · simp only [hrep, if_true, ite_true]
          exact skip_wrap_inv c a s h
        · simp only [hrep, if_false, ite_false]
          exact inv_finish s
  · rw [Audio.skip]
    simp only [h0, hsong, h1, if_false, ite_false]
    cases hidx : s.queue_idx with
    | none => exact h
    | some i =>
      by_cases hw : (s.repeat_mode = Repeat.Queue ∨
          s.repeat_mode = Repeat.QueuePause) ∧ i + n ≥ s.queue.length
      · simp only [hw, if_true, ite_true]
        exact skip_wrap_inv c a s h
      · simp only [hw, if_false, ite_false]
        by_cases hlen : s.queue.length > i + n
        · simp only [hlen, if_true, ite_true]
          exact inv_of_eqs s.queue (i + n) _ (by omega) rfl rfl rfl
        · simp only [hlen, if_false, ite_false]
          exact inv_finish s

theorem seek_inv (c : Collection) (mode : Seek) (time : Nat) (a : Audio)
    (s : AudioState) (h : Inv s) : Inv (Audio.seek c mode time a s).2 := by
  rw [Audio.seek.eq_def]
  by_cases hc : a.current = true
  · simp only [hc, if_true, ite_true]
    cases mode with
    | Forward =>
      by_cases hov : time + s.elapsed > s.runtime
      · simp only [hov, if_true, ite_true]
        exact skip_inv c 1 a s h
      · simp only [hov, if_false, ite_false]
        exact h
    | Backward => exact h
    | Absolute =>
      by_cases hov : time > s.runtime
      · simp only [hov, if_true, ite_true]
        exact skip_inv c 1 a s h
      · simp only [hov, if_false, ite_false]
        exact h
  · simp only [hc, if_false, ite_false]
    exact h

theorem back_inv (c : Collection) (n : Nat) (threshold : Option Nat)
    (th : Nat) (a : Audio) (s : AudioState) (h : Inv s) :
    Inv (Audio.back c n threshold th a s).2 := by
  rw [Audio.back]
  cases hq : s.queue.isEmpty with
  | true => exact h
  | false =>
    simp only [Bool.false_eq_true, if_false, ite_false]
    cases hidx : s.queue_idx with
    | none => exact h
    | some i =>
      have hlen : 0 < s.queue.length := by
        cases hql : s.queue with
        | nil => rw [hql] at hq; simp at hq
        | cons x xs => simp
      have hilen : i < s.queue.length := (h.1 i hidx).1
      by_cases hlt : i < n
      · simp only [hlt, if_true, ite_true]
        exact inv_of_eqs s.queue 0 _ hlen rfl rfl rfl
      · simp only [hlt, if_false, ite_false]
        cases threshold with
        | some t =>
          by_cases hcond : t ≠ 0 ∧ s.elapsed > t
          · simp only [if_pos hcond]
            exact seek_inv c Seek.Absolute 0 a s h
          · simp only [if_neg hcond]
            exact inv_of_eqs s.queue (i - n) _ (by omega) rfl rfl rfl
        | none =>
          by_cases hcond : th ≠ 0 ∧ s.elapsed > th
          · simp only [if_pos hcond]
            exact seek_inv c Seek.Absolute 0 a s h
          · simp only [if_neg hcond]
            exact inv_of_eqs s.queue (i - n) _ (by omega) rfl rfl rfl

theorem shuffle_inv (c : Collection) (sh : List Nat) (a : Audio)
    (s : AudioState) (h : Inv s) (hp : s.queue.Perm sh) :
    Inv (Audio.shuffle c sh a s).2 := by
  rw [Audio.shuffle]
  cases hq : s.queue.isEmpty with
  | true => exact h
  | false =>
    have hlen : 0 < sh.length := by
      rw [← hp.length_eq]
      cases hql : s.queue with
      | nil => rw [hql] at hq; simp at hq
      | cons x xs => simp
    simp only [Bool.false_eq_true, if_false, ite_false]
    exact inv_of_eqs sh 0 _ hlen rfl rfl rfl

theorem clear_false_inv (a : Audio) (s : AudioState) :
    Inv (Audio.clear false a s).2 :=
  inv_finish _

theorem queue_set_index_inv (c : Collection) (i : Nat) (a : Audio)
    (s : AudioState) : Inv (Audio.queue_set_index c i a s).2 := by
  rw [Audio.queue_set_index]
  by_cases hge : i ≥ s.queue.length
  · simp only [hge, if_true, ite_true]
    exact inv_finish s
  · simp only [hge, if_false, ite_false]
    exact inv_of_eqs s.queue i _ (by omega) rfl rfl rfl

/-- C1 (amended).  The queue-integrity invariant — `queue_idx = Some(i)`
implies `i < len(queue)` and `song = Some(queue[i])`, and an empty queue
implies `queue_idx = None`, `song = None`, `playing = false` — is
preserved (on the success path of `set()`) by `skip`, `back`, `seek`,
`shuffle` (for any permutation of the queue), `clear(false)`, and
`queue_set_index`.  It is NOT established or preserved by the remaining
operations the claim lists: `clear(true)` (the counterexample), the
`queue_add_*` family (e.g. `Back` onto a non-empty queue with nothing
playing points `queue_idx` at 0 while the song is appended at the tail),
`queue_remove_range` (the dangling-index cases of C2), or the Kernel's
boot-time validation (which checks `queue_idx` against the queue before
clearing the queue and never compares `song` with `queue[queue_idx]`). -/
theorem audio_ops_preserve_queue_integrity (c : Collection) (a : Audio)
    (s : AudioState) (h : Inv s) :
    (∀ n, Inv (Audio.skip c n a s).2) ∧
    (∀ n threshold th, Inv (Audio.back c n threshold th a s).2) ∧
    (∀ mode time, Inv (Audio.seek c mode time a s).2) ∧
    (∀ sh, s.queue.Perm sh → Inv (Audio.shuffle c sh a s).2) ∧
    Inv (Audio.clear false a s).2 ∧
    (∀ i, Inv (Audio.queue_set_index c i a s).2) :=
  ⟨fun n => skip_inv c n a s h,
   fun n threshold th => back_inv c n threshold th a s h,
   fun mode time => seek_inv c mode time a s h,
   fun sh hp => shuffle_inv c sh a s h hp,
   clear_false_inv a s,
   fun i => queue_set_index_inv c i a s⟩

/-- Witness for C1: the invariant holds for queue `[A, B, C]` with
`queue_idx = 1`, and is preserved by `skip(1)` from there. -/
theorem audio_ops_preserve_queue_integrity_witness :
    Inv stateABC1 ∧ Inv (Audio.skip collectionX 1 audioLoaded stateABC1).2 := by
  have hInv : Inv stateABC1 := by
    constructor
    · intro i hi
      have hi' : (1 : Nat) = i := Option.some.inj hi
      cases hi'
      exact ⟨by decide, by decide⟩
    · intro he
      exact absurd he (by decide)
  exact ⟨hInv, (audio_ops_preserve_queue_integrity collectionX audioLoaded
    stateABC1 hInv).1 1⟩

end Shukusai
